import Mathlib

/-!
Shallow embedding of the MTGTop8 URL scraper (`src/A9.py`) and verification of
the specification claims about it.  DOM reads performed through the browser
session are embedded as pure record fields; the control flow of each Python
function is translated statement by statement.
-/

set_option maxHeartbeats 1000000

namespace Scraper

/-! ### String helpers mirroring the Python string operations used by the code -/

/-- Character-list version of Python's `str.strip()`: drop leading and trailing
whitespace. -/
def stripChars (cs : List Char) : List Char :=
  ((cs.dropWhile Char.isWhitespace).reverse.dropWhile Char.isWhitespace).reverse

/-- Python's `s.strip()`. -/
def pyStrip (s : String) : String :=
  String.mk (stripChars s.data)

/-- Python's `s.lower()` (ASCII case folding, which is all the code relies on). -/
def pyLower (s : String) : String :=
  String.mk (s.data.map Char.toLower)

/-- `listPre needle hay` holds when `needle` is a prefix of `hay`. -/
def listPre : List Char → List Char → Bool
  | [], _ => true
  | _ :: _, [] => false
  | a :: as, b :: bs => a == b && listPre as bs

/-- `listSub needle hay` holds when `needle` occurs contiguously inside `hay`
(Python's `needle in hay` on strings). -/
def listSub (needle : List Char) : List Char → Bool
  | [] => listPre needle []
  | b :: bs => listPre needle (b :: bs) || listSub needle bs

/-- Python's substring test `needle in hay`. -/
def strContains (hay needle : String) : Bool :=
  listSub needle.data hay.data

/-! ### Data model -/

/-- A discovered (name, url) pair for one event; `url` is the identity used by
the deduplication step of `scrape_from_url`. -/
structure EventLink where
  name : String
  url : String
deriving DecidableEq

/-! ### Deduplicator (`scrape_from_url`, the `seen_urls` loop) -/

/-- The deduplication loop of `scrape_from_url`: walk the accumulated links,
keeping each link whose `url` has not been seen before and recording its url. -/
def dedupeAux : List EventLink → List String → List EventLink
  | [], _ => []
  | e :: es, seen =>
    if e.url ∈ seen then dedupeAux es seen
    else e :: dedupeAux es (e.url :: seen)

/-- `unique_events` as computed from `all_event_links` with an empty `seen_urls`. -/
def dedupe (links : List EventLink) : List EventLink :=
  dedupeAux links []

theorem dedupeAux_sublist (es : List EventLink) :
    ∀ seen, (dedupeAux es seen).Sublist es := by
  induction es with
  | nil => intro seen; simp [dedupeAux]
  | cons e es ih =>
    intro seen
    by_cases h : e.url ∈ seen
    · simpa [dedupeAux, h] using (ih seen).cons e
    · simpa [dedupeAux, h] using (ih (e.url :: seen)).cons₂ e

theorem dedupeAux_mem (es : List EventLink) :
    ∀ seen e', e' ∈ dedupeAux es seen →
      e'.url ∉ seen ∧ es.find? (fun x => x.url == e'.url) = some e' := by
  induction es with
  | nil => intro seen e' h; simp [dedupeAux] at h
  | cons e es ih =>
    intro seen e' h
    by_cases hc : e.url ∈ seen
    · rw [dedupeAux, if_pos hc] at h
      obtain ⟨hn, hf⟩ := ih seen e' h
      have hne : e.url ≠ e'.url := fun heq => hn (heq ▸ hc)
      refine ⟨hn, ?_⟩
      rw [List.find?_cons_of_neg, hf]
      simpa using hne
    · rw [dedupeAux, if_neg hc] at h
      rcases List.mem_cons.mp h with rfl | h
      · refine ⟨hc, ?_⟩
        rw [List.find?_cons_of_pos]
        simp
      · obtain ⟨hn, hf⟩ := ih (e.url :: seen) e' h
        have hne : e.url ≠ e'.url := by
          intro heq
          exact hn (by simp [heq])
        have hn' : e'.url ∉ seen := fun hx => hn (by simp [hx])
        refine ⟨hn', ?_⟩
        rw [List.find?_cons_of_neg, hf]
        simpa using hne

theorem dedupeAux_pairwise (es : List EventLink) :
    ∀ seen, (dedupeAux es seen).Pairwise (fun a b => a.url ≠ b.url) := by
  induction es with
  | nil => intro seen; simp [dedupeAux]
  | cons e es ih =>
    intro seen
    by_cases hc : e.url ∈ seen
    · rw [dedupeAux, if_pos hc]; exact ih seen
    · rw [dedupeAux, if_neg hc]
      refine List.pairwise_cons.mpr ⟨?_, ih (e.url :: seen)⟩
      intro b hb
      have := (dedupeAux_mem es (e.url :: seen) b hb).1
      intro heq
      exact this (by simp [heq])

theorem dedupeAux_cover (es : List EventLink) :
    ∀ seen e, e ∈ es →
      e.url ∈ seen ∨ ∃ e' ∈ dedupeAux es seen, e'.url = e.url := by
  induction es with
  | nil => intro seen e h; simp at h
  | cons e0 es ih =>
    intro seen e h
    by_cases hc : e0.url ∈ seen
    · rw [dedupeAux, if_pos hc]
      rcases List.mem_cons.mp h with rfl | h
      · exact Or.inl hc
      · exact ih seen e h
    · rw [dedupeAux, if_neg hc]
      rcases List.mem_cons.mp h with rfl | h
      · exact Or.inr ⟨e, List.mem_cons_self _ _, rfl⟩
      · rcases ih (e0.url :: seen) e h with hs | ⟨e', he', heq⟩
        · rcases List.mem_cons.mp hs with heq | hs
          · exact Or.inr ⟨e0, List.mem_cons_self _ _, heq.symm⟩
          · exact Or.inl hs
        · exact Or.inr ⟨e', List.mem_cons_of_mem _ he', heq⟩

/-- C1: for every input list, `dedupe` preserves input order (sublist), has
pairwise-distinct urls, covers every input url, returns for each kept url the
first input entry carrying it, and never lengthens the list. -/
theorem dedupe_first_occurrence_spec (l : List EventLink) :
    (dedupe l).Sublist l
    ∧ (dedupe l).Pairwise (fun a b => a.url ≠ b.url)
    ∧ (∀ e ∈ l, ∃ e' ∈ dedupe l, e'.url = e.url)
    ∧ (∀ e' ∈ dedupe l, l.find? (fun x => x.url == e'.url) = some e')
    ∧ (dedupe l).length ≤ l.length := by
  refine ⟨dedupeAux_sublist l [], dedupeAux_pairwise l [], ?_, ?_, ?_⟩
  · intro e he
    rcases dedupeAux_cover l [] e he with hs | h
    · simp at hs
    · exact h
  · intro e' he'
    exact (dedupeAux_mem l [] e' he').2
  · exact (dedupeAux_sublist l []).length_le

/-- Concrete input exercising C1: the duplicate of `u1` keeps the first name. -/
def dedupeSample : List EventLink :=
  [⟨"A", "u1"⟩, ⟨"B", "u1"⟩, ⟨"C", "u2"⟩]

/-- Witness for C1 at a concrete input with a duplicate url: the kept entry for
`u1` is the first input entry with that url. -/
theorem dedupe_first_occurrence_spec_witness :
    dedupeSample.find? (fun x => x.url == "u1") = some ⟨"A", "u1"⟩ :=
  (dedupe_first_occurrence_spec dedupeSample).2.2.2.1 ⟨"A", "u1"⟩ (by decide)

/-! ### Page Event Extractor (`get_event_links_from_current_page`) -/

/-- A rendered anchor element: its visible text, `href` attribute and `class`
attribute (already coalesced to `""` when the attribute is missing, mirroring
`get_attribute('class') or ""`). -/
structure Elem where
  text : String
  href : String
  cls : String
deriving DecidableEq

/-- A `<table>` element of the page: whether it carries `class="Stable"` and
the anchor elements it contains, in render order. -/
structure Table where
  isStable : Bool
  links : List Elem
deriving DecidableEq

/-- The per-candidate filter body of `get_event_links_from_current_page`:
skip empty text/href, skip `'und' in element_class`, skip
`'league' in event_text.lower()`, otherwise keep `{'name': …, 'url': …}`. -/
def processElem (e : Elem) : Option EventLink :=
  let event_text := pyStrip e.text
  let event_url := e.href
  let element_class := e.cls
  if event_text == "" || event_url == "" then none
  else if strContains element_class "und" then none
  else if strContains (pyLower event_text) "league" then none
  else some ⟨event_text, event_url⟩

/-- The anchors of a table matched by the selector `a[href*='event?e=']`. -/
def eventElems (t : Table) : List Elem :=
  t.links.filter (fun e => strContains e.href "event?e=")

/-- Event links collected from one table, after the per-candidate filter. -/
def extractFromTable (t : Table) : List EventLink :=
  (eventElems t).filterMap processElem

/-- `get_event_links_from_current_page`: find all `table.Stable` elements,
return `[]` when fewer than two exist, otherwise extract from the second one. -/
def get_event_links_from_current_page (doc : List Table) : List EventLink :=
  let stable_tables := doc.filter (·.isStable)
  if stable_tables.length < 2 then []
  else
    match stable_tables[1]? with
    | some second_table => extractFromTable second_table
    | none => []

/-- C2: with fewer than two Stable tables the extractor returns `[]`, and with
two or more it extracts exactly from the second Stable table, so the first and
any later table never contribute. -/
theorem get_event_links_second_table_only (doc : List Table) :
    ((doc.filter (·.isStable)).length < 2 → get_event_links_from_current_page doc = [])
    ∧ (∀ t0 t1 rest, doc.filter (·.isStable) = t0 :: t1 :: rest →
        get_event_links_from_current_page doc = extractFromTable t1) := by
  constructor
  · intro h
    simp [get_event_links_from_current_page, h]
  · intro t0 t1 rest h
    have hlen : ¬ (doc.filter (·.isStable)).length < 2 := by
      rw [h]; simp
    simp [get_event_links_from_current_page, hlen, h]

/-- First Stable table of the C2 witness document (ignored by the code). -/
def tblDecoy : Table := ⟨true, [⟨"Decoy Event", "event?e=9", ""⟩]⟩

/-- Second Stable table of the C2 witness document (the one used). -/
def tblUsed : Table := ⟨true, [⟨"Real Event", "event?e=1&f=ST", ""⟩]⟩

/-- C2 witness document: two Stable tables separated by a non-Stable one. -/
def docTwoStable : List Table := [tblDecoy, ⟨false, []⟩, tblUsed]

/-- Witness for C2: on an empty document the result is `[]`, and on a document
with two Stable tables the result comes from the second one. -/
theorem get_event_links_second_table_only_witness :
    get_event_links_from_current_page [] = []
    ∧ get_event_links_from_current_page docTwoStable = extractFromTable tblUsed :=
  ⟨(get_event_links_second_table_only []).1 (by decide),
   (get_event_links_second_table_only docTwoStable).2 tblDecoy tblUsed [] (by decide)⟩

/-- C5 (amended): a candidate from the second table is dropped exactly when its
stripped text is empty, its href is empty, its class attribute CONTAINS the
substring `und`, or its lowered text contains `league`; and every kept
candidate appears in the extractor's output for its table. -/
theorem processElem_exclusion (e : Elem) (t : Table) (h1 : e ∈ t.links)
    (h2 : strContains e.href "event?e=" = true) :
    (processElem e = none ↔
      (pyStrip e.text = "" ∨ e.href = "" ∨ strContains e.cls "und" = true
        ∨ strContains (pyLower (pyStrip e.text)) "league" = true))
    ∧ (∀ link, processElem e = some link → link ∈ extractFromTable t) := by
  constructor
  · simp only [processElem]
    split_ifs with hA hB hC
    · simp only [Bool.or_eq_true, beq_iff_eq] at hA
      simp only [true_iff]
      tauto
    · simp only [true_iff]
      tauto
    · simp only [true_iff]
      tauto
    · simp only [Bool.or_eq_true, beq_iff_eq, not_or] at hA
      simp only [Bool.not_eq_true] at hB hC
      simp only [reduceCtorEq, false_iff, not_or]
      refine ⟨hA.1, hA.2, ?_, ?_⟩ <;> simp_all
  · intro link hsome
    exact List.mem_filterMap.mpr ⟨e, List.mem_filter.mpr ⟨h1, h2⟩, hsome⟩

/-- A surviving candidate for the C5 witness. -/
def elemLive : Elem := ⟨"GP Lyon", "event?e=7&f=MO", ""⟩

/-- The C5 witness table containing `elemLive`. -/
def tblLive : Table := ⟨true, [elemLive]⟩

/-- Witness for C5 (amended): the surviving candidate reaches the output. -/
theorem processElem_exclusion_witness :
    (⟨"GP Lyon", "event?e=7&f=MO"⟩ : EventLink) ∈ extractFromTable tblLive :=
  (processElem_exclusion elemLive tblLive (by decide) (by decide)).2
    ⟨"GP Lyon", "event?e=7&f=MO"⟩ (by decide)

/-- A candidate whose class attribute is `round`: it does not equal `und`, its
text and href are non-empty and its text has no `league`, yet it is excluded,
because the code tests substring containment (`'und' in element_class`). -/
def elemRound : Elem := ⟨"Big Event", "event?e=99&f=ST", "round"⟩

/-- Counterexample to C5 as stated: `elemRound`'s class attribute differs from
`und`, its text and address are non-empty and contain no `league`, yet the
extractor excludes it. -/
theorem processElem_und_substring_counterexample :
    elemRound.cls ≠ "und"
    ∧ pyStrip elemRound.text ≠ ""
    ∧ elemRound.href ≠ ""
    ∧ strContains (pyLower (pyStrip elemRound.text)) "league" = false
    ∧ processElem elemRound = none := by decide

/-! ### Event Detail Extractor (`extract_event_data`) -/

/-- Does the regex `\d{2}/\d{2}/\d{2}` match at the start of `cs`? -/
def matchDateAt : List Char → Bool
  | a :: b :: s1 :: c :: d :: s2 :: e :: f :: _ =>
      a.isDigit && b.isDigit && s1 == '/' && c.isDigit && d.isDigit && s2 == '/'
        && e.isDigit && f.isDigit
  | _ => false

/-- `re.search(r'\d{2}/\d{2}/\d{2}', page_source)`: leftmost match, as the
matched 8-character substring. -/
def firstDate : List Char → Option String
  | [] => none
  | c :: cs =>
    if matchDateAt (c :: cs) then some (String.mk ((c :: cs).take 8))
    else firstDate cs

/-- A deck anchor returned by the selector `a[href*='&d=']`; `fault` records
that reading its text or href raised (caught by the per-link `except`). -/
structure DeckElem where
  fault : Bool
  text : String
  href : String
deriving DecidableEq

/-- The event page as `extract_event_data` observes it, with one fault flag per
`try` block of the function: navigation (`driver.get`), the date block
(`page_source` access), and the deck block (`find_elements`). -/
structure EventPage where
  navFault : Bool
  pageSourceFault : Bool
  pageSource : String
  findDeckLinksFault : Bool
  deckLinks : List DeckElem
deriving DecidableEq

/-- One deck row of an event. -/
structure SubRecord where
  position : Nat
  deck_name : String
  player : String
  deck_url : String
deriving DecidableEq

/-- The per-event record built by `extract_event_data`. -/
structure EventRecord where
  event_name : String
  date : String
  event_url : String
  total_decks : Nat
  decks : List SubRecord
deriving DecidableEq

/-- The per-link guard of the deck loop: the link is kept when reading it did
not raise, `deck_name` and `deck_url` are truthy, and `'&d=' in deck_url`. -/
def keepDeck (d : DeckElem) : Bool :=
  !d.fault && !(pyStrip d.text == "") && !(d.href == "") && strContains d.href "&d="

/-- The deck loop: kept links receive consecutive positions starting from the
running `position_counter`; skipped links do not advance the counter. -/
def collectDecks : List DeckElem → Nat → List SubRecord
  | [], _ => []
  | d :: ds, position_counter =>
    if keepDeck d then
      ⟨position_counter, pyStrip d.text, "Unknown", d.href⟩
        :: collectDecks ds (position_counter + 1)
    else collectDecks ds position_counter

/-- `extract_event_data`: a navigation fault reaches the outer `except` and
yields `None`; a fault in the date block leaves `date = "Unknown"`; a fault in
the deck query leaves `decks = []`; otherwise the record is built in full. -/
def extract_event_data (page : EventPage) (event_url event_name : String) :
    Option EventRecord :=
  if page.navFault then none
  else
    let date :=
      if page.pageSourceFault then "Unknown"
      else (firstDate page.pageSource.data).getD "Unknown"
    let decks :=
      if page.findDeckLinksFault then [] else collectDecks page.deckLinks 1
    some ⟨event_name, date, event_url, decks.length, decks⟩

/-- C3 (amended): a navigation fault yields no record, while with navigation
succeeding the extractor always returns a record; faults inside the date or
deck blocks are contained, degrading the record to `date = "Unknown"` or
`decks = []` instead of suppressing it. -/
theorem extract_event_data_fault_containment (page : EventPage) (u n : String) :
    (page.navFault = true → extract_event_data page u n = none)
    ∧ (page.navFault = false → (extract_event_data page u n).isSome = true)
    ∧ (page.navFault = false → page.pageSourceFault = true →
        Option.map EventRecord.date (extract_event_data page u n) = some "Unknown")
    ∧ (page.navFault = false → page.findDeckLinksFault = true →
        Option.map EventRecord.decks (extract_event_data page u n) = some []) := by
  refine ⟨?_, ?_, ?_, ?_⟩
  · intro h; simp [extract_event_data, h]
  · intro h; simp [extract_event_data, h]
  · intro h hd; simp [extract_event_data, h, hd]
  · intro h hd; simp [extract_event_data, h, hd]

/-- A page whose navigation raised. -/
def pageNavFault : EventPage := ⟨true, false, "", false, []⟩

/-- A page where both the date block and the deck query raised. -/
def pageDegraded : EventPage := ⟨false, true, "", true, []⟩

/-- Witness for C3 (amended) at concrete pages: navigation fault gives `none`;
internal faults still give a (degraded) record. -/
theorem extract_event_data_fault_containment_witness :
    extract_event_data pageNavFault "u" "E" = none
    ∧ Option.map EventRecord.date (extract_event_data pageDegraded "u" "E")
        = some "Unknown"
    ∧ Option.map EventRecord.decks (extract_event_data pageDegraded "u" "E")
        = some [] :=
  ⟨(extract_event_data_fault_containment pageNavFault "u" "E").1 rfl,
   (extract_event_data_fault_containment pageDegraded "u" "E").2.2.1 rfl rfl,
   (extract_event_data_fault_containment pageDegraded "u" "E").2.2.2 rfl rfl⟩

/-- A page whose deck query raised while navigation succeeded. -/
def pageDeckFault : EventPage := ⟨false, false, "x 01/02/23", true, []⟩

/-- Counterexample to C3 as stated: a fault during deck extraction does NOT
suppress the record — the extractor still returns one. -/
theorem extract_event_data_fault_counterexample :
    pageDeckFault.navFault = false
    ∧ pageDeckFault.findDeckLinksFault = true
    ∧ extract_event_data pageDeckFault "u" "E" ≠ none := by decide

theorem collectDecks_positions (ds : List DeckElem) :
    ∀ c, (collectDecks ds c).map SubRecord.position
      = List.range' c (collectDecks ds c).length := by
  induction ds with
  | nil => intro c; simp [collectDecks]
  | cons d ds ih =>
    intro c
    by_cases h : keepDeck d = true
    · simp only [collectDecks, if_pos h, List.map_cons, List.length_cons,
        List.range'_succ]
      rw [ih (c + 1)]
    · simp only [collectDecks, if_neg h]
      exact ih c

/-- C6: every record the Event Detail Extractor returns has
`total_decks = decks.length` and positions forming the dense 1-based sequence
`[1, …, decks.length]` (skipped links consume no position). -/
theorem extract_event_data_dense_positions (page : EventPage) (u n : String)
    (r : EventRecord) (h : extract_event_data page u n = some r) :
    r.total_decks = r.decks.length
    ∧ r.decks.map SubRecord.position = List.range' 1 r.decks.length := by
  by_cases hn : page.navFault
  · simp [extract_event_data, hn] at h
  · simp only [extract_event_data, hn, Bool.false_eq_true, if_false,
      Option.some.injEq] at h
    subst h
    refine ⟨rfl, ?_⟩
    by_cases hf : page.findDeckLinksFault
    · simp [hf]
    · simp only [hf, Bool.false_eq_true, if_false]
      exact collectDecks_positions page.deckLinks 1

/-- A kept deck link. -/
def deckBurn : DeckElem := ⟨false, "Burn", "event?e=1&d=11&f=ST"⟩

/-- A skipped deck link (stripped text empty): it consumes no position. -/
def deckBlank : DeckElem := ⟨false, "  ", "event?e=1&d=12&f=ST"⟩

/-- A second kept deck link. -/
def deckCtrl : DeckElem := ⟨false, "Control", "event?e=1&d=13&f=ST"⟩

/-- The C6 witness page: two kept deck links around a skipped one. -/
def pageDecks : EventPage :=
  ⟨false, false, "Standard 05/06/24 results", false, [deckBurn, deckBlank, deckCtrl]⟩

/-- The record `extract_event_data` builds from `pageDecks`. -/
def recDecks : EventRecord :=
  ⟨"E", "05/06/24", "u", 2,
   [⟨1, "Burn", "Unknown", "event?e=1&d=11&f=ST"⟩,
    ⟨2, "Control", "Unknown", "event?e=1&d=13&f=ST"⟩]⟩

/-- Witness for C6 at a concrete page with a skipped middle link. -/
theorem extract_event_data_dense_positions_witness :
    recDecks.total_decks = recDecks.decks.length
    ∧ recDecks.decks.map SubRecord.position = List.range' 1 recDecks.decks.length :=
  extract_event_data_dense_positions pageDecks "u" "E" recDecks (by decide)

/-! ### Pagination Controller, numbered-link strategy (`scrape_from_url`,
Method 2) -/

/-- Collapse every internal whitespace run to a single space; used to model
XPath's `normalize-space` below (after also dropping leading whitespace). -/
def squeezeWS : List Char → List Char
  | [] => []
  | c :: cs =>
    let r := squeezeWS cs
    if c.isWhitespace then
      match r with
      | [] => []
      | d :: ds => if d == ' ' then d :: ds else ' ' :: d :: ds
    else c :: r

/-- XPath `normalize-space(text())`. -/
def normSpace (s : String) : String :=
  String.mk ((squeezeWS s.data).dropWhile Char.isWhitespace)

/-- Selector 1: `//a[normalize-space(text())='{next_page_num}']`. -/
def selOne (n : Nat) (l : Elem) : Bool :=
  normSpace l.text == toString n

/-- Selector 2: `//a[contains(@href, 'cp={next_page_num}')]`. -/
def selTwo (n : Nat) (l : Elem) : Bool :=
  strContains l.href ("cp=" ++ toString n)

/-- Selector 3: `&cp={n}` or `?cp={n}` in the href. -/
def selThree (n : Nat) (l : Elem) : Bool :=
  strContains l.href ("&cp=" ++ toString n) || strContains l.href ("?cp=" ++ toString n)

/-- The candidate validation of Method 2: reject `Nav_PN_no` links, then
reject `archetype` hrefs, `aggro`/`control`/`combo` texts, and texts longer
than 3 characters. -/
def validPageLink (l : Elem) : Bool :=
  let link_text := pyStrip l.text
  let link_href := l.href
  let link_class := l.cls
  !(strContains link_class "Nav_PN_no")
    && !(strContains link_href "archetype"
          || strContains (pyLower link_text) "aggro"
          || strContains (pyLower link_text) "control"
          || strContains (pyLower link_text) "combo"
          || decide (3 < link_text.length))

/-- Method 2 of the pagination search: try the three selectors in order and,
within each selector's matches, click the first candidate passing validation. -/
def findNumberedPageLink (n : Nat) (links : List Elem) : Option Elem :=
  match (links.filter (selOne n)).find? validPageLink with
  | some l => some l
  | none =>
    match (links.filter (selTwo n)).find? validPageLink with
    | some l => some l
    | none => (links.filter (selThree n)).find? validPageLink

theorem findNumberedPageLink_cases (n : Nat) (links : List Elem) (l : Elem)
    (h : findNumberedPageLink n links = some l) :
    validPageLink l = true
      ∧ (selOne n l = true ∨ selTwo n l = true ∨ selThree n l = true) := by
  unfold findNumberedPageLink at h
  cases h1 : (links.filter (selOne n)).find? validPageLink with
  | some l1 =>
    rw [h1] at h
    cases h
    exact ⟨List.find?_some h1,
      Or.inl (List.mem_filter.mp (List.mem_of_find?_eq_some h1)).2⟩
  | none =>
    rw [h1] at h
    cases h2 : (links.filter (selTwo n)).find? validPageLink with
    | some l2 =>
      rw [h2] at h
      cases h
      exact ⟨List.find?_some h2,
        Or.inr (Or.inl (List.mem_filter.mp (List.mem_of_find?_eq_some h2)).2)⟩
    | none =>
      rw [h2] at h
      exact ⟨List.find?_some h,
        Or.inr (Or.inr (List.mem_filter.mp (List.mem_of_find?_eq_some h)).2)⟩

/-- C4 (amended): a link returned by the numbered-link strategy matches one of
the three selectors (exact next-index text, or `cp=`-encoded index in the
href), does not carry the disabled marker, has no `archetype` href and no
`aggro`/`control`/`combo` text, and its stripped text has at most 3
characters (the code's cutoff is 3, not 2). -/
theorem findNumberedPageLink_requirements (n : Nat) (links : List Elem) (l : Elem)
    (h : findNumberedPageLink n links = some l) :
    (normSpace l.text = toString n
      ∨ strContains l.href ("cp=" ++ toString n) = true
      ∨ strContains l.href ("&cp=" ++ toString n) = true
      ∨ strContains l.href ("?cp=" ++ toString n) = true)
    ∧ strContains l.cls "Nav_PN_no" = false
    ∧ strContains l.href "archetype" = false
    ∧ strContains (pyLower (pyStrip l.text)) "aggro" = false
    ∧ strContains (pyLower (pyStrip l.text)) "control" = false
    ∧ strContains (pyLower (pyStrip l.text)) "combo" = false
    ∧ (pyStrip l.text).length ≤ 3 := by
  obtain ⟨hv, hsel⟩ := findNumberedPageLink_cases n links l h
  simp only [validPageLink, Bool.and_eq_true, Bool.not_eq_true', Bool.or_eq_false_iff,
    decide_eq_false_iff_not, not_lt] at hv
  obtain ⟨hnav, hrest⟩ := hv
  obtain ⟨⟨⟨⟨harch, hagg⟩, hctl⟩, hcmb⟩, hlen⟩ := hrest
  refine ⟨?_, hnav, harch, hagg, hctl, hcmb, hlen⟩
  rcases hsel with h1 | h2 | h3
  · exact Or.inl (by simpa [selOne] using h1)
  · exact Or.inr (Or.inl (by simpa [selTwo] using h2))
  · simp only [selThree, Bool.or_eq_true] at h3
    rcases h3 with h3 | h3
    · exact Or.inr (Or.inr (Or.inl h3))
    · exact Or.inr (Or.inr (Or.inr h3))

/-- A valid numbered-pagination candidate for the C4 witness. -/
def linkSeven : Elem := ⟨"7", "format?f=ST&cp=7", ""⟩

/-- Witness for C4 (amended) at a concrete candidate. -/
theorem findNumberedPageLink_requirements_witness :
    (normSpace linkSeven.text = toString 7
      ∨ strContains linkSeven.href ("cp=" ++ toString 7) = true
      ∨ strContains linkSeven.href ("&cp=" ++ toString 7) = true
      ∨ strContains linkSeven.href ("?cp=" ++ toString 7) = true)
    ∧ strContains linkSeven.cls "Nav_PN_no" = false
    ∧ strContains linkSeven.href "archetype" = false
    ∧ strContains (pyLower (pyStrip linkSeven.text)) "aggro" = false
    ∧ strContains (pyLower (pyStrip linkSeven.text)) "control" = false
    ∧ strContains (pyLower (pyStrip linkSeven.text)) "combo" = false
    ∧ (pyStrip linkSeven.text).length ≤ 3 :=
  findNumberedPageLink_requirements 7 [linkSeven] linkSeven (by decide)

/-- A candidate whose visible text is the 3-digit numeral `100` and whose href
carries no `cp=` parameter. -/
def linkHundred : Elem := ⟨"100", "format?f=ST", ""⟩

/-- Counterexample to C4 as stated: with next page 100, a candidate whose text
is 3 characters long (longer than 2) and whose address encodes no page index
is accepted, not rejected. -/
theorem findNumberedPageLink_length_counterexample :
    findNumberedPageLink 100 [linkHundred] = some linkHundred
    ∧ 2 < (pyStrip linkHundred.text).length
    ∧ strContains linkHundred.href "cp=" = false := by decide

/-! ### Pagination loop safety ceiling (`scrape_from_url`, `while True`) -/

/-- The `while True` page loop of `scrape_from_url`, abstracted over the
Pagination Controller's decision (`ctrl`, whether page `cp` reports a next
page) and the per-page extraction (`ext`).  Returns the number of pages
scraped and the accumulated links.  The recursion mirrors the loop exactly:
break when no next page; increment `current_page`; break when it exceeds
5000. -/
def pageLoop (ctrl : Nat → Bool) (ext : Nat → List EventLink)
    (current_page : Nat) (iters : Nat) (acc : List EventLink) :
    Nat × List EventLink :=
  let acc2 := acc ++ ext current_page
  if ctrl current_page = false then (iters + 1, acc2)
  else if h : current_page + 1 > 5000 then (iters + 1, acc2)
  else pageLoop ctrl ext (current_page + 1) (iters + 1) acc2
termination_by 5001 - current_page
decreasing_by omega

theorem pageLoop_iters_le (ctrl : Nat → Bool) (ext : Nat → List EventLink) :
    ∀ fuel cp iters acc, 5001 - cp ≤ fuel → cp ≤ 5000 →
      (pageLoop ctrl ext cp iters acc).1 ≤ iters + (5001 - cp) := by
  intro fuel
  induction fuel with
  | zero => intro cp iters acc h hle; omega
  | succ m ih =>
    intro cp iters acc h hle
    rw [pageLoop]
    by_cases hc : ctrl cp = false
    · rw [if_pos hc]; simp; omega
    · rw [if_neg hc]
      by_cases hb : cp + 1 > 5000
      · rw [dif_pos hb]; simp; omega
      · rw [dif_neg hb]
        have := ih (cp + 1) (iters + 1) (acc ++ ext cp) (by omega) (by omega)
        omega

/-- C7: however the Pagination Controller behaves — even reporting a next page
on every iteration — the page loop started at page 1 scrapes at most 5000
pages. -/
theorem page_loop_safety_ceiling (ctrl : Nat → Bool) (ext : Nat → List EventLink) :
    (pageLoop ctrl ext 1 0 []).1 ≤ 5000 := by
  have h := pageLoop_iters_le ctrl ext 5000 1 0 [] (by omega) (by omega)
  simpa using h

/-! ### Exporter (`save_data`) -/

/-- One flattened CSV row, one per (event, deck) pair. -/
structure Row where
  event_name : String
  event_date : String
  event_url : String
  deck_position : Nat
  deck_name : String
  player_name : String
  deck_url : String
deriving DecidableEq

/-- The `all_decks` flattening loop of `save_data`. -/
def flattenRows (events : List EventRecord) : List Row :=
  (events.map (fun event =>
    event.decks.map (fun deck =>
      ⟨event.event_name, event.date, event.event_url,
       deck.position, deck.deck_name, deck.player, deck.deck_url⟩))).flatten

/-- The CSV header row pandas writes from the row dict keys. -/
def headerLine : String :=
  "event_name,event_date,event_url,deck_position,deck_name,player_name,deck_url"

/-- Serialization of one data row. -/
def rowLine (r : Row) : String :=
  r.event_name ++ "," ++ r.event_date ++ "," ++ r.event_url ++ ","
    ++ toString r.deck_position ++ "," ++ r.deck_name ++ ","
    ++ r.player_name ++ "," ++ r.deck_url

/-- The `chunk_size = 10000` of the chunked writing path. -/
def chunk_size : Nat := 10000

/-- The chunks visited by `for i in range(0, len(df), chunk_size)` with
`chunk = df[i:i+chunk_size]`. -/
def csvChunks : List Row → List (List Row)
  | [] => []
  | r :: rs => (r :: rs).take chunk_size :: csvChunks ((r :: rs).drop chunk_size)
termination_by l => l.length
decreasing_by simp [chunk_size]; omega

/-- The non-batched write `df.to_csv(csv_filename, index=False)`, as the list
of lines of the produced file. -/
def plainCsv (rows : List Row) : List String :=
  headerLine :: rows.map rowLine

/-- The chunked writing loop: the first chunk is written with `mode='w',
header=True`, every later chunk appended with `header=False`. -/
def writeChunks : List (List Row) → Bool → List String
  | [], _ => []
  | c :: cs, first =>
    (if first then headerLine :: c.map rowLine else c.map rowLine)
      ++ writeChunks cs false

/-- The file produced by the chunked writing path. -/
def chunkedCsv (rows : List Row) : List String :=
  writeChunks (csvChunks rows) true

theorem csvChunks_join_le :
    ∀ (n : Nat) (l : List Row), l.length ≤ n → (csvChunks l).flatten = l := by
  intro n
  induction n with
  | zero =>
    intro l h
    cases l with
    | nil => simp [csvChunks]
    | cons r rs => simp at h
  | succ m ih =>
    intro l h
    cases l with
    | nil => simp [csvChunks]
    | cons r rs =>
      rw [csvChunks, List.flatten_cons,
        ih ((r :: rs).drop chunk_size)
          (by simp only [List.length_drop, List.length_cons, chunk_size] at h ⊢; omega)]
      exact List.take_append_drop _ _

theorem writeChunks_no_header (cs : List (List Row)) :
    writeChunks cs false = cs.flatten.map rowLine := by
  induction cs with
  | nil => simp [writeChunks]
  | cons c cs ih => simp [writeChunks, ih]

/-- C8: for every non-empty row list (in particular whenever the chunked path
is taken, at more than 100000 rows) the chunked write produces exactly the
lines of the non-batched write: one header followed by the same data rows in
the same order. -/
theorem chunked_write_eq_plain (rows : List Row) (h : rows ≠ []) :
    chunkedCsv rows = plainCsv rows := by
  cases rows with
  | nil => exact absurd rfl h
  | cons r rs =>
    rw [chunkedCsv, csvChunks, writeChunks, if_pos rfl, writeChunks_no_header,
      csvChunks_join_le ((r :: rs).drop chunk_size).length _ le_rfl, plainCsv]
    simp [← List.map_append]

/-- A sample flattened row. -/
def rowSample : Row := ⟨"E1", "01/02/23", "u1", 1, "D1", "Unknown", "d1"⟩

/-- Witness for C8 at a concrete row list. -/
theorem chunked_write_eq_plain_witness :
    chunkedCsv [rowSample] = plainCsv [rowSample] :=
  chunked_write_eq_plain [rowSample] (by simp)

/-- The observable outcome of `save_data`: early return with no data, an
`UnboundLocalError` on `csv_filename` in the summary, or a written file. -/
inductive SaveOutcome where
  | noData : SaveOutcome
  | nameError : SaveOutcome
  | wrote : List String → SaveOutcome
deriving DecidableEq

/-- `save_data`: return early on no events; flatten; write the CSV (chunked
past 100000 rows) only when `all_decks` is non-empty; the closing summary
reads `csv_filename`, which is bound only inside the writing branch, so with
events but zero flattened rows the function raises instead of returning. -/
def save_data (all_events_data : List EventRecord) : SaveOutcome :=
  if all_events_data.isEmpty then .noData
  else
    let all_decks := flattenRows all_events_data
    if all_decks.isEmpty then .nameError
    else .wrote
      (if 100000 < all_decks.length then chunkedCsv all_decks else plainCsv all_decks)

/-- The file `save_data` produced, if any. -/
def fileWritten : SaveOutcome → Option (List String)
  | .wrote f => some f
  | _ => none

/-- C9: whenever the flattened row list is empty — no events, or all events
with zero decks — `save_data` writes no file. -/
theorem save_data_empty_no_file (events : List EventRecord)
    (h : flattenRows events = []) : fileWritten (save_data events) = none := by
  by_cases he : events.isEmpty
  · simp [save_data, he, fileWritten]
  · simp [save_data, he, h, fileWritten]

/-- An event record with zero decks. -/
def evNoDecks : EventRecord := ⟨"E", "Unknown", "u", 0, []⟩

/-- Witness for C9 at a non-empty event list all of whose records have zero
decks. -/
theorem save_data_empty_no_file_witness :
    fileWritten (save_data [evNoDecks]) = none :=
  save_data_empty_no_file [evNoDecks] (by decide)

/-- C10: for a non-empty event list in which every record has zero decks,
`save_data` writes no file and does not return normally: composing the final
summary raises the unbound-name error on `csv_filename`. -/
theorem save_data_unbound_filename (events : List EventRecord)
    (h1 : events ≠ []) (h2 : ∀ e ∈ events, e.decks = []) :
    save_data events = SaveOutcome.nameError
    ∧ fileWritten (save_data events) = none := by
  have hflat : flattenRows events = [] := by
    rw [flattenRows, List.flatten_eq_nil_iff]
    intro x hx
    obtain ⟨e, he, rfl⟩ := List.mem_map.mp hx
    rw [h2 e he]
    rfl
  have hne : events.isEmpty = false := by
    cases events with
    | nil => exact absurd rfl h1
    | cons e es => rfl
  refine ⟨?_, ?_⟩
  · simp [save_data, hne, hflat]
  · simp [save_data, hne, hflat, fileWritten]

/-- Witness for C10 at a concrete one-event list with zero decks. -/
theorem save_data_unbound_filename_witness :
    save_data [evNoDecks] = SaveOutcome.nameError
    ∧ fileWritten (save_data [evNoDecks]) = none :=
  save_data_unbound_filename [evNoDecks] (by simp) (by decide)

end Scraper
